import Mathlib

set_option maxRecDepth 8192

/-!
Verification of the plod build-feedback orchestrator.

This file is a shallow embedding, in Lean 4, of the core logic of the
repository:

* `parseBuildStatus` (src/services/poller.ts) — the pure classifier that
  maps the raw stdout of the configured status command to one of the three
  build states, using whole-word regular-expression matching;
* the `poll` loop of `PollerServiceLive` (src/services/poller.ts) — the
  orchestrator state machine, embedded as a step function over an explicit
  loop state, consuming an oracle of external-command results and emitting
  the effect trace (command executions, sleeps, structured log events) the
  TypeScript code performs;
* the result construction of `ExecutorService.execute`
  (src/services/executor.ts) and the non-error path of
  `ClaudeWorkerService.work` (src/services/claude-worker.ts).

JavaScript-specific behaviour is modelled explicitly: `toLowerCase` on the
ASCII range, the `trim` whitespace set, regex word boundaries (`\b` with
the word class [A-Za-z0-9_]), string truthiness, and property access on a
missing field yielding `undefined` (encoded as `Option String`).
-/

/-- Build status result (poller.ts, `type BuildStatus`). -/
inductive BuildStatus where
  | success
  | failure
  | pending
deriving DecidableEq, Repr

/-! ## JavaScript string primitives -/

/-- Word character of the JS regex class `\w` / boundary class for `\b`:
ASCII letters, digits, underscore. -/
def isWordChar (c : Char) : Bool :=
  c.isAlphanum || c = '_'

/-- Whitespace recognised by JS `String.prototype.trim`: the WhiteSpace and
LineTerminator productions (ASCII whitespace, NBSP, BOM, Unicode space
separators, line/paragraph separators). -/
def isJsWhitespace (c : Char) : Bool :=
  c = ' ' || c = '\t' || c = '\n' || c = '\r' ||
  c = Char.ofNat 0x0B || c = Char.ofNat 0x0C ||
  c = Char.ofNat 0xA0 || c = Char.ofNat 0x1680 ||
  (0x2000 ≤ c.toNat && c.toNat ≤ 0x200A) ||
  c = Char.ofNat 0x2028 || c = Char.ofNat 0x2029 ||
  c = Char.ofNat 0x202F || c = Char.ofNat 0x205F ||
  c = Char.ofNat 0x3000 || c = Char.ofNat 0xFEFF

/-- JS `trim`: remove leading and trailing whitespace. -/
def jsTrim (l : List Char) : List Char :=
  ((l.dropWhile isJsWhitespace).reverse.dropWhile isJsWhitespace).reverse

/-- JS `toLowerCase`, on the ASCII fragment exercised by the classifier
(`Char.toLower` lowers exactly the ASCII uppercase letters). -/
def jsToLower (l : List Char) : List Char :=
  l.map Char.toLower

/-- Characters matched by the regex metacharacter `.` (anything but a line
terminator). -/
def isDotChar (c : Char) : Bool :=
  !(c = '\n' || c = '\r' || c = Char.ofNat 0x2028 || c = Char.ofNat 0x2029)

/-- If `kw` is a literal prefix of `s`, return the remaining suffix. -/
def stripLiteral : List Char → List Char → Option (List Char)
  | [], rest => some rest
  | _ :: _, [] => none
  | k :: ks, c :: cs => if k = c then stripLiteral ks cs else none

/-- The boundary `\b` holds before a word-character position iff the
preceding character (if any) is not a word character. -/
def boundaryBefore : Option Char → Bool
  | none => true
  | some c => !isWordChar c

/-- The boundary `\b` holds after a word-character position iff the
following character (if any) is not a word character. -/
def boundaryAfter : List Char → Bool
  | [] => true
  | c :: _ => !isWordChar c

/-- The keyword `kw` (all word characters) matches at the head of `s` as a
whole word, given the character `prev` preceding this position. -/
def wholeWordAt (kw : List Char) (prev : Option Char) (s : List Char) : Bool :=
  boundaryBefore prev &&
    (match stripLiteral kw s with
     | some rest => boundaryAfter rest
     | none => false)

/-- Scan for a whole-word occurrence of `kw` anywhere in the string,
tracking the previously seen character for the left boundary. -/
def containsWholeWordFrom (kw : List Char) : Option Char → List Char → Bool
  | prev, [] => wholeWordAt kw prev []
  | prev, c :: cs => wholeWordAt kw prev (c :: cs) || containsWholeWordFrom kw (some c) cs

/-- Test `/\b(k1|k2|...)\b/` on `s`: some alternative occurs somewhere as a
whole word. -/
def containsAnyWholeWord (kws : List (List Char)) (s : List Char) : Bool :=
  kws.any (fun kw => containsWholeWordFrom kw none s)

/-- The alternative `in.?progress` of the pending pattern matches at the
head of `s` as a whole word: literal `in`, at most one non-line-terminator
character, literal `progress`, with `\b` on both sides. -/
def inProgressAt (prev : Option Char) (s : List Char) : Bool :=
  boundaryBefore prev &&
    (match stripLiteral ['i', 'n'] s with
     | none => false
     | some rest =>
       (match stripLiteral "progress".data rest with
        | some r => boundaryAfter r
        | none => false) ||
       (match rest with
        | [] => false
        | c :: cs =>
          isDotChar c &&
            (match stripLiteral "progress".data cs with
             | some r => boundaryAfter r
             | none => false)))

/-- Scan for an `in.?progress` whole-word occurrence anywhere in `s`. -/
def containsInProgressFrom : Option Char → List Char → Bool
  | prev, [] => inProgressAt prev []
  | prev, c :: cs => inProgressAt prev (c :: cs) || containsInProgressFrom (some c) cs

/-! ## The status classifier (poller.ts, `parseBuildStatus`) -/

/-- Success alternatives of `/\b(success|successful|passed|pass|ok)\b/`. -/
def successKeywords : List (List Char) :=
  ["success".data, "successful".data, "passed".data, "pass".data, "ok".data]

/-- Failure alternatives of `/\b(fail(ure|ed)?|error|failed|broken)\b/`;
`fail(ure|ed)?` expands to `fail`, `failure`, `failed`. -/
def failureKeywords : List (List Char) :=
  ["fail".data, "failure".data, "failed".data, "error".data, "broken".data]

/-- Literal alternatives of
`/\b(pending|running|in.?progress|building|queued)\b/` other than
`in.?progress`, which needs its own matcher. -/
def pendingKeywords : List (List Char) :=
  ["pending".data, "running".data, "building".data, "queued".data]

/-- Test of the success pattern on the normalized text. -/
def successMatch (s : List Char) : Bool :=
  containsAnyWholeWord successKeywords s

/-- Test of the failure pattern on the normalized text. -/
def failureMatch (s : List Char) : Bool :=
  containsAnyWholeWord failureKeywords s

/-- Test of the pending pattern on the normalized text. -/
def pendingMatch (s : List Char) : Bool :=
  containsAnyWholeWord pendingKeywords s || containsInProgressFrom none s

/-- The classifier input normalization: `output.toLowerCase().trim()`. -/
def normalizeStatus (output : String) : List Char :=
  jsTrim (jsToLower output.data)

/-- Parse build status from command output (poller.ts lines 64-84):
test the success pattern, then the failure pattern, then the pending
pattern, defaulting to pending. -/
def parseBuildStatus (output : String) : BuildStatus :=
  let normalized := normalizeStatus output
  if successMatch normalized then .success
  else if failureMatch normalized then .failure
  else if pendingMatch normalized then .pending
  else .pending

/-! ## External-command results (executor.ts) -/

/-- Result of executing a command (executor.ts, `CommandResult`). -/
structure CommandResult where
  stdout : String
  stderr : String
  exitCode : Int
deriving DecidableEq, Repr

/-- Error executing a command (executor.ts, `CommandExecutionError`): it
carries the command, the exit code and the captured stderr — and nothing
else; in particular it has no stdout field. -/
structure CommandExecutionError where
  command : String
  exitCode : Int
  stderr : String
deriving DecidableEq, Repr

/-- JS property access `error.stdout` on a `CommandExecutionError`: the
class declares no such field, so the access evaluates to `undefined`,
encoded as `none`. -/
def CommandExecutionError.jsStdout (_e : CommandExecutionError) : Option String :=
  none

/-- JS truthiness of a string value: the empty string is falsy. -/
def jsTruthyStr (s : String) : Bool :=
  !(s == "")

/-- JS truthiness of a possibly-undefined string value: `undefined` is
falsy. -/
def jsTruthy : Option String → Bool
  | none => false
  | some s => jsTruthyStr s

/-- JS `a || b` where `a` is a possibly-undefined string and `b` a string:
return `a` when truthy, otherwise `b`. -/
def jsOrString : Option String → String → String
  | none, t => t
  | some s, t => if s == "" then t else s

/-- Result construction of `ExecutorService.execute` (executor.ts lines
186-199): a non-zero exit code raises `CommandExecutionError` carrying the
command, exit code and the raw stderr text (the stdout text is discarded);
exit code zero yields the trimmed outputs. -/
def executeOutcome (command stdout stderr : String) (exitCode : Int) :
    Except CommandExecutionError CommandResult :=
  if exitCode ≠ 0 then
    .error { command := command, exitCode := exitCode, stderr := stderr }
  else
    .ok { stdout := String.mk (jsTrim stdout.data),
          stderr := String.mk (jsTrim stderr.data),
          exitCode := exitCode }

/-! ## The remediation worker (claude-worker.ts) -/

/-- Result of running the agent to fix issues (claude-worker.ts,
`ClaudeWorkResult`). -/
structure ClaudeWorkResult where
  success : Bool
  output : String
deriving DecidableEq, Repr

/-- Error running the agent worker (claude-worker.ts,
`ClaudeWorkerError`); the untyped `cause` payload is not modelled. -/
structure ClaudeWorkerError where
  message : String
deriving DecidableEq, Repr

/-- One message of the agent SDK stream, restricted to the fields the
worker reads: its `type` tag and its `text` field when that is present
with a string value. -/
structure SdkMessage where
  type : String
  text : Option String
deriving DecidableEq, Repr

/-- The `work` function of `ClaudeWorkerServiceLive` (claude-worker.ts
lines 54-133), with the SDK session abstracted as the list of streamed
messages: validate that the args carry a `-p` flag followed by a prompt,
accumulate every string `text` field of the stream, and return
`success := true` with the joined output; validation failure surfaces as
the `ClaudeWorkerError` built by the catch handler. -/
def work (args : List String) (messages : List SdkMessage) :
    Except ClaudeWorkerError ClaudeWorkResult :=
  match args.findIdx? (fun a => a == "-p") with
  | none => .error { message := "Failed to run Claude agent" }
  | some promptArgIndex =>
    if args.length - 1 ≤ promptArgIndex then
      .error { message := "Failed to run Claude agent" }
    else
      .ok { success := true,
            output := String.join (messages.filterMap (fun m => m.text)) }

/-! ## Configuration (schemas/config.ts) -/

/-- Shell commands plod executes (`Commands`). -/
structure Commands where
  publish : String
  checkBuildStatus : String
  checkBuildFailures : String
deriving DecidableEq, Repr

/-- Agent invocation configuration (`WorkConfig`). -/
structure WorkConfig where
  command : String
  args : List String
deriving DecidableEq, Repr

/-- Polling configuration (`PollingConfig`); the schema constrains all
three numbers to positive integers. -/
structure PollingConfig where
  intervalSeconds : Nat
  maxPollTimeMinutes : Nat
  maxWorkIterations : Nat
deriving DecidableEq, Repr

/-- Main plod configuration (`PlodConfig`). -/
structure PlodConfig where
  commands : Commands
  work : WorkConfig
  polling : PollingConfig
deriving DecidableEq, Repr

/-! ## The orchestrator loop (poller.ts, `poll`) -/

/-- Audit entry for one iteration (poller.ts, `IterationResult`); the
`Date` timestamp is modelled as an integer clock value. -/
structure IterationResult where
  iteration : Nat
  status : BuildStatus
  workedOn : Bool
  timestamp : Int
deriving DecidableEq, Repr

/-- Final result of the polling process (poller.ts, `PollingResult`). -/
structure PollingResult where
  iterations : List IterationResult
  finalStatus : BuildStatus
  maxIterationsReached : Bool
deriving DecidableEq, Repr

/-- Errors of the poller (`PollerError`): either executor or worker. -/
inductive PollerError where
  | cmd (e : CommandExecutionError)
  | worker (e : ClaudeWorkerError)
deriving DecidableEq, Repr

/-- The mutable state of one run of the `poll` loop: the `iterations`
array and the `workIterationCount` counter. -/
structure LoopState where
  iterations : List IterationResult
  workIterationCount : Nat
deriving DecidableEq, Repr

/-- Initial loop state: empty history, zero work iterations. -/
def initState : LoopState :=
  { iterations := [], workIterationCount := 0 }

/-- Observable effects of the loop body, in program order: each command
execution, each sleep, and each structured `console.log` event, with the
payload fields the code logs. -/
inductive Event where
  | maxPollTimeExceeded (elapsedMinutes : Int)
  | execCmd (command : String)
  | buildStatusLog (status : BuildStatus)
  | buildSucceeded
  | sleepSec (seconds : Nat)
  | maxWorkIterationsLog (count : Nat)
  | workIterationStart (iteration : Nat) (maxWorkIterations : Nat)
  | buildFailedLog (waitingForLogs : Nat)
  | failuresExtracted (detailsLength : Nat) (detailsPreview : String)
  | claudeStarted
  | claudeFinished (success : Bool) (outputLength : Nat)
  | claudeOutput (output : String)
  | claudeNoOutput
  | noChangesLog
  | publishingChanges
  | fixesPublished
deriving DecidableEq, Repr

/-- Oracle for the external world during one pass of the loop body: the
clock reading at the top of the cycle, the outcome of each external call
the body may make (each call site reads its own slot), and the clock value
recorded in an appended iteration record. The remediation-agent slot is a
function of the failure details the orchestrator passes to it. -/
structure CycleEnv where
  now : Int
  statusResult : Except CommandExecutionError CommandResult
  failuresResult : Except CommandExecutionError CommandResult
  workResult : String → Except ClaudeWorkerError ClaudeWorkResult
  gitStatusResult : Except CommandExecutionError CommandResult
  publishResult : Except CommandExecutionError CommandResult
  timestamp : Int

/-- Outcome of one pass of the loop body. -/
inductive StepResult where
  | done (r : PollingResult)
  | failed (e : PollerError)
  | next (st : LoopState)
deriving DecidableEq, Repr

/-- Maximum poll time in milliseconds (poller.ts line 100). -/
def maxPollTimeMs (cfg : PlodConfig) : Nat :=
  cfg.polling.maxPollTimeMinutes * 60 * 1000

/-- Recovery wrapper around the failure-extraction command (poller.ts
lines 191-207): on `CommandExecutionError`, if `error.stdout ||
error.stderr` is truthy, succeed with `{stdout: error.stdout, stderr:
error.stderr, exitCode: error.exitCode}`; otherwise re-raise the error.
Since the error class has no stdout field, `error.stdout` is `undefined`,
so the recovered stdout is undefined and only a non-empty stderr enables
recovery. -/
structure FailuresOutput where
  stdout : Option String
  stderr : String
  exitCode : Int
deriving DecidableEq, Repr

/-- See `FailuresOutput`. -/
def extractFailuresOutcome (res : Except CommandExecutionError CommandResult) :
    Except CommandExecutionError FailuresOutput :=
  match res with
  | .ok r => .ok { stdout := some r.stdout, stderr := r.stderr, exitCode := r.exitCode }
  | .error e =>
    if jsTruthy e.jsStdout || jsTruthyStr e.stderr then
      .ok { stdout := e.jsStdout, stderr := e.stderr, exitCode := e.exitCode }
    else
      .error e

/-- One pass of the body of the `while (true)` loop of `poll` (poller.ts
lines 104-277), returning the emitted effect trace and either a final
result, a propagated error, or the successor state for the next pass. -/
def pollStep (cfg : PlodConfig) (startTime : Int) (st : LoopState) (env : CycleEnv) :
    List Event × StepResult :=
  let failureWaitSeconds := cfg.polling.intervalSeconds * 3
  let elapsedTime := env.now - startTime
  if (maxPollTimeMs cfg : Int) < elapsedTime then
    let tr := [Event.maxPollTimeExceeded (elapsedTime / 60000),
               Event.execCmd cfg.commands.checkBuildStatus]
    match env.statusResult with
    | .error e => (tr, .failed (.cmd e))
    | .ok finalStatusResult =>
      (tr, .done { iterations := st.iterations,
                   finalStatus := parseBuildStatus finalStatusResult.stdout,
                   maxIterationsReached := false })
  else
    match env.statusResult with
    | .error e => ([Event.execCmd cfg.commands.checkBuildStatus], .failed (.cmd e))
    | .ok statusResult =>
      let status := parseBuildStatus statusResult.stdout
      let tr0 := [Event.execCmd cfg.commands.checkBuildStatus, Event.buildStatusLog status]
      match status with
      | .success =>
        (tr0 ++ [Event.buildSucceeded],
         .done { iterations := st.iterations ++
                   [{ iteration := st.workIterationCount, status := .success,
                      workedOn := false, timestamp := env.timestamp }],
                 finalStatus := .success, maxIterationsReached := false })
      | .pending =>
        (tr0 ++ [Event.sleepSec cfg.polling.intervalSeconds],
         .next { iterations := st.iterations ++
                   [{ iteration := st.workIterationCount, status := .pending,
                      workedOn := false, timestamp := env.timestamp }],
                 workIterationCount := st.workIterationCount })
      | .failure =>
        if cfg.polling.maxWorkIterations ≤ st.workIterationCount then
          (tr0 ++ [Event.maxWorkIterationsLog st.workIterationCount],
           .done { iterations := st.iterations, finalStatus := .failure,
                   maxIterationsReached := true })
        else
          let workIterationCount := st.workIterationCount + 1
          let tr1 := tr0 ++
            [Event.workIterationStart workIterationCount cfg.polling.maxWorkIterations,
             Event.buildFailedLog failureWaitSeconds,
             Event.sleepSec failureWaitSeconds,
             Event.execCmd cfg.commands.checkBuildFailures]
          match extractFailuresOutcome env.failuresResult with
          | .error e => (tr1, .failed (.cmd e))
          | .ok failuresResult =>
            let failureDetails := jsOrString failuresResult.stdout failuresResult.stderr
            let tr2 := tr1 ++
              [Event.failuresExtracted failureDetails.length (failureDetails.take 200),
               Event.claudeStarted]
            match env.workResult failureDetails with
            | .error e => (tr2, .failed (.worker e))
            | .ok workResult =>
              let tr3 := tr2 ++
                [Event.claudeFinished workResult.success workResult.output.length] ++
                (if jsTruthyStr workResult.output then [Event.claudeOutput workResult.output]
                 else [Event.claudeNoOutput]) ++
                [Event.execCmd "git status --porcelain"]
              match env.gitStatusResult with
              | .error e => (tr3, .failed (.cmd e))
              | .ok gitStatusResult =>
                let hasChanges := decide (0 < (jsTrim gitStatusResult.stdout.data).length)
                if !hasChanges then
                  (tr3 ++ [Event.noChangesLog, Event.sleepSec cfg.polling.intervalSeconds],
                   .next { iterations := st.iterations ++
                             [{ iteration := workIterationCount, status := .failure,
                                workedOn := false, timestamp := env.timestamp }],
                           workIterationCount := workIterationCount })
                else
                  let st' : LoopState :=
                    { iterations := st.iterations ++
                        [{ iteration := workIterationCount, status := .failure,
                           workedOn := true, timestamp := env.timestamp }],
                      workIterationCount := workIterationCount }
                  match env.publishResult with
                  | .error e =>
                    (tr3 ++ [Event.publishingChanges, Event.execCmd cfg.commands.publish],
                     .failed (.cmd e))
                  | .ok _ =>
                    (tr3 ++ [Event.publishingChanges, Event.execCmd cfg.commands.publish,
                             Event.fixesPublished, Event.sleepSec cfg.polling.intervalSeconds],
                     .next st')

/-- Final outcome of running the loop against a finite oracle. -/
inductive PollOutcome where
  | ok (r : PollingResult)
  | err (e : PollerError)
  | outOfEnv (st : LoopState)
deriving DecidableEq, Repr

/-- The `while (true)` loop of `poll`, driven by a finite list of cycle
oracles; if the list is exhausted while the loop would continue, the
current state is surfaced as `outOfEnv`. -/
def pollLoop (cfg : PlodConfig) (startTime : Int) :
    LoopState → List CycleEnv → List Event × PollOutcome
  | st, [] => ([], .outOfEnv st)
  | st, env :: rest =>
    match pollStep cfg startTime st env with
    | (tr, .done r) => (tr, .ok r)
    | (tr, .failed e) => (tr, .err e)
    | (tr, .next st') =>
      let res := pollLoop cfg startTime st' rest
      (tr ++ res.1, res.2)

/-! ## Derived observations about a cycle -/

/-- A failure classification is observed in a cycle: the budget check at
the top of the cycle passes, the status command succeeds, and its stdout
classifies as failure. -/
def observesFailure (cfg : PlodConfig) (startTime : Int) (env : CycleEnv) : Bool :=
  if (maxPollTimeMs cfg : Int) < env.now - startTime then false
  else
    match env.statusResult with
    | .error _ => false
    | .ok r => decide (parseBuildStatus r.stdout = BuildStatus.failure)

/-- Number of remediation-agent invocations recorded in a trace: the
`claude_started` log line is emitted immediately before each call of the
worker and nowhere else. -/
def countClaudeStarted : List Event → Nat
  | [] => 0
  | e :: rest => (if e = Event.claudeStarted then 1 else 0) + countClaudeStarted rest

/-- An oracle under which the working tree never reports pending changes:
whenever the change-detection command succeeds, its stdout trims to
nothing. -/
def NoChangesOracle (env : CycleEnv) : Prop :=
  ∀ gr, env.gitStatusResult = Except.ok gr → jsTrim gr.stdout.data = []

/-- Reachability between loop states: `Reaches cfg start st st2` holds when
some sequence of continuing passes of the loop body leads from `st` to
`st2`. -/
inductive Reaches (cfg : PlodConfig) (startTime : Int) : LoopState → LoopState → Prop where
  | refl (st : LoopState) : Reaches cfg startTime st st
  | step {st st' st'' : LoopState} (env : CycleEnv) (tr : List Event)
      (h : pollStep cfg startTime st env = (tr, .next st'))
      (htail : Reaches cfg startTime st' st'') : Reaches cfg startTime st st''

/-! ## Concrete scenario inputs -/

/-- A concrete configuration: five-second interval, ten-minute budget, a
single allowed work iteration. -/
def cfgX : PlodConfig :=
  { commands := { publish := "git push origin HEAD",
                  checkBuildStatus := "check-status",
                  checkBuildFailures := "jk check" },
    work := { command := "claude", args := ["-p", "fix the build"] },
    polling := { intervalSeconds := 5, maxPollTimeMinutes := 10, maxWorkIterations := 1 } }

/-- A cycle in which the build reports failure, extraction succeeds, the
agent reports success, and the working tree shows no pending changes. -/
def envNoChange : CycleEnv :=
  { now := 0,
    statusResult := .ok { stdout := "failure", stderr := "", exitCode := 0 },
    failuresResult := .ok { stdout := "2 tests failed", stderr := "", exitCode := 0 },
    workResult := fun _ => .ok { success := true, output := "done" },
    gitStatusResult := .ok { stdout := "", stderr := "", exitCode := 0 },
    publishResult := .ok { stdout := "", stderr := "", exitCode := 0 },
    timestamp := 42 }

/-- A cycle in which the build reports failure and the failure-extraction
command exits with code 1 after writing only to stdout: the executor
discards the stdout text, so the resulting `CommandExecutionError` carries
an empty stderr. -/
def envStdoutOnly : CycleEnv :=
  { now := 0,
    statusResult := .ok { stdout := "failure", stderr := "", exitCode := 0 },
    failuresResult := executeOutcome "jk check" "3 tests failed" "" 1,
    workResult := fun _ => .ok { success := true, output := "done" },
    gitStatusResult := .ok { stdout := "", stderr := "", exitCode := 0 },
    publishResult := .ok { stdout := "", stderr := "", exitCode := 0 },
    timestamp := 42 }

theorem countClaudeStarted_append (l₁ l₂ : List Event) :
    countClaudeStarted (l₁ ++ l₂) = countClaudeStarted l₁ + countClaudeStarted l₂ := by
  induction l₁ with
  | nil => simp [countClaudeStarted]
  | cons e rest ih => simp [countClaudeStarted, ih]; ring

theorem pollStep_next_char (cfg : PlodConfig) (startTime : Int) (st : LoopState)
    (env : CycleEnv) (tr : List Event) (st' : LoopState)
    (h : pollStep cfg startTime st env = (tr, .next st')) :
    st'.workIterationCount = st.workIterationCount +
      (if observesFailure cfg startTime env = true then 1 else 0) ∧
    (observesFailure cfg startTime env = true →
      st.workIterationCount < cfg.polling.maxWorkIterations) ∧
    (∃ t, st'.iterations = st.iterations ++ t) ∧
    countClaudeStarted tr = (if observesFailure cfg startTime env = true then 1 else 0) := by
  simp only [pollStep] at h
  split at h
  case isTrue hbud =>
    split at h <;> simp at h
  case isFalse hbud =>
    split at h
    case h_1 e heq => simp at h
    case h_2 sr heq =>
      split at h
      case h_1 hparse => simp at h
      case h_2 hparse =>
        simp only [Prod.mk.injEq, StepResult.next.injEq] at h
        obtain ⟨htr, hst⟩ := h
        subst htr hst
        simp [observesFailure, hbud, heq, hparse, countClaudeStarted]
      case h_3 hparse =>
        split at h
        case isTrue hcap => simp at h
        case isFalse hcap =>
          split at h
          case h_1 e heqf => simp at h
          case h_2 fr heqf =>
            split at h
            case h_1 e heqw => simp at h
            case h_2 w heqw =>
              split at h
              case h_1 e heqg => simp at h
              case h_2 gr heqg =>
                split at h
                case isTrue hch =>
                  simp only [Prod.mk.injEq, StepResult.next.injEq] at h
                  obtain ⟨htr, hst⟩ := h
                  subst htr hst
                  constructor
                  · simp [observesFailure, hbud, heq, hparse]
                  refine ⟨fun _ => by omega, ⟨_, rfl⟩, ?_⟩
                  simp [observesFailure, hbud, heq, hparse, countClaudeStarted,
                        countClaudeStarted_append]
                  split <;> simp [countClaudeStarted]
                case isFalse hch =>
                  split at h
                  case h_1 e heqp => simp at h
                  case h_2 pr heqp =>
                    simp only [Prod.mk.injEq, StepResult.next.injEq] at h
                    obtain ⟨htr, hst⟩ := h
                    subst htr hst
                    constructor
                    · simp [observesFailure, hbud, heq, hparse]
                    refine ⟨fun _ => by omega, ⟨_, rfl⟩, ?_⟩
                    simp [observesFailure, hbud, heq, hparse, countClaudeStarted,
                          countClaudeStarted_append]
                    split <;> simp [countClaudeStarted]

theorem pollStep_done_char (cfg : PlodConfig) (startTime : Int) (st : LoopState)
    (env : CycleEnv) (tr : List Event) (r : PollingResult)
    (h : pollStep cfg startTime st env = (tr, .done r)) :
    (∃ t, r.iterations = st.iterations ++ t) ∧ countClaudeStarted tr = 0 := by
  simp only [pollStep] at h
  split at h
  case isTrue hbud =>
    split at h
    case h_1 e heq => simp at h
    case h_2 sr heq =>
      simp only [Prod.mk.injEq, StepResult.done.injEq] at h
      obtain ⟨htr, hr⟩ := h
      subst htr hr
      exact ⟨⟨[], by simp⟩, by simp [countClaudeStarted]⟩
  case isFalse hbud =>
    split at h
    case h_1 e heq => simp at h
    case h_2 sr heq =>
      split at h
      case h_1 hparse =>
        simp only [Prod.mk.injEq, StepResult.done.injEq] at h
        obtain ⟨htr, hr⟩ := h
        subst htr hr
        exact ⟨⟨_, rfl⟩, by simp [countClaudeStarted]⟩
      case h_2 hparse => simp at h
      case h_3 hparse =>
        split at h
        case isTrue hcap =>
          simp only [Prod.mk.injEq, StepResult.done.injEq] at h
          obtain ⟨htr, hr⟩ := h
          subst htr hr
          exact ⟨⟨[], by simp⟩, by simp [countClaudeStarted]⟩
        case isFalse hcap =>
          split at h
          case h_1 e heqf => simp at h
          case h_2 fr heqf =>
            split at h
            case h_1 e heqw => simp at h
            case h_2 w heqw =>
              split at h
              case h_1 e heqg => simp at h
              case h_2 gr heqg =>
                split at h
                case isTrue hch => simp at h
                case isFalse hch =>
                  split at h <;> simp at h

theorem pollStep_no_publish (cfg : PlodConfig) (startTime : Int) (st : LoopState)
    (env : CycleEnv) (hgit : NoChangesOracle env) :
    Event.publishingChanges ∉ (pollStep cfg startTime st env).1 := by
  simp only [pollStep]
  split
  case isTrue hbud => split <;> simp
  case isFalse hbud =>
    split
    case h_1 e heq => simp
    case h_2 sr heq =>
      split
      case h_1 hparse => simp
      case h_2 hparse => simp
      case h_3 hparse =>
        split
        case isTrue hcap => simp
        case isFalse hcap =>
          split
          case h_1 e heqf => simp
          case h_2 fr heqf =>
            split
            case h_1 e heqw => simp
            case h_2 w heqw =>
              split
              case h_1 e heqg => split <;> simp
              case h_2 gr heqg =>
                have hempty := hgit gr heqg
                split
                case isTrue hch => split <;> simp
                case isFalse hch =>
                  simp [hempty] at hch

theorem pollLoop_no_publish (cfg : PlodConfig) (startTime : Int) :
    ∀ (envs : List CycleEnv) (st : LoopState),
      (∀ e ∈ envs, NoChangesOracle e) →
      Event.publishingChanges ∉ (pollLoop cfg startTime st envs).1 := by
  intro envs
  induction envs with
  | nil => intro st _; simp [pollLoop]
  | cons env rest ih =>
    intro st hor
    have hstep := pollStep_no_publish cfg startTime st env (hor env (by simp))
    rcases hp : pollStep cfg startTime st env with ⟨tr, res⟩
    rw [hp] at hstep
    cases res with
    | done r => simp only [pollLoop, hp]; exact hstep
    | failed e => simp only [pollLoop, hp]; exact hstep
    | next st' =>
      simp only [pollLoop, hp, List.mem_append]
      push_neg
      exact ⟨hstep, ih st' (fun e he => hor e (by simp [he]))⟩

/-- C7: along any run, the iterations list only ever grows by appending
(never removed or reordered), the work-iteration counter is monotonically
non-decreasing, it never exceeds the configured maximum, and the final
result's list still extends the history. -/
theorem run_append_only_and_capped (cfg : PlodConfig) (startTime : Int)
    (st₁ st₂ : LoopState) (h : Reaches cfg startTime st₁ st₂) :
    (∃ t, st₂.iterations = st₁.iterations ++ t) ∧
    st₁.workIterationCount ≤ st₂.workIterationCount ∧
    (st₁.workIterationCount ≤ cfg.polling.maxWorkIterations →
      st₂.workIterationCount ≤ cfg.polling.maxWorkIterations) ∧
    (∀ env tr r, pollStep cfg startTime st₂ env = (tr, .done r) →
      ∃ t, r.iterations = st₂.iterations ++ t) := by
  induction h with
  | refl st =>
    exact ⟨⟨[], by simp⟩, le_refl _, fun h => h,
           fun env tr r hp => (pollStep_done_char _ _ _ _ _ _ hp).1⟩
  | step env tr hstep htail ih =>
    obtain ⟨⟨t₁, hiter⟩, hle, hcap, hdone⟩ := ih
    obtain ⟨hcount, hcaplt, ⟨t₀, hit0⟩, _⟩ := pollStep_next_char _ _ _ _ _ _ hstep
    refine ⟨⟨t₀ ++ t₁, by rw [hiter, hit0, List.append_assoc]⟩, ?_, ?_, hdone⟩
    · refine le_trans ?_ hle
      rw [hcount]; split <;> omega
    · intro hinit
      apply hcap
      rw [hcount]
      split
      case isTrue hobs => have := hcaplt hobs; omega
      case isFalse hobs => omega

def stNoChange : LoopState :=
  { iterations := [{ iteration := 1, status := .failure, workedOn := false, timestamp := 42 }],
    workIterationCount := 1 }

theorem run_append_only_and_capped_wit :
    (∃ t, stNoChange.iterations = initState.iterations ++ t) ∧
    stNoChange.workIterationCount ≤ cfgX.polling.maxWorkIterations :=
  have hr : Reaches cfgX 0 initState stNoChange :=
    .step envNoChange (pollStep cfgX 0 initState envNoChange).1 (by decide) (.refl _)
  have hmain := run_append_only_and_capped cfgX 0 initState stNoChange hr
  ⟨hmain.1, hmain.2.2.1 (by decide)⟩

/-- C5 (amended): on any continuing pass of the loop body, the counter
increments exactly when a failure classification was observed (which in a
continuing pass entails the cap had not been reached); pending cycles
leave it unchanged, and a failure cycle increments it whether or not
remediation produced a change. -/
theorem counter_increment_iff_failure (cfg : PlodConfig) (startTime : Int)
    (st : LoopState) (env : CycleEnv) (tr : List Event) (st' : LoopState)
    (h : pollStep cfg startTime st env = (tr, .next st')) :
    st'.workIterationCount = st.workIterationCount +
      (if observesFailure cfg startTime env = true then 1 else 0) ∧
    (observesFailure cfg startTime env = true →
      st.workIterationCount < cfg.polling.maxWorkIterations) :=
  have hc := pollStep_next_char cfg startTime st env tr st' h
  ⟨hc.1, hc.2.1⟩

theorem counter_increment_iff_failure_wit :
    stNoChange.workIterationCount = initState.workIterationCount +
      (if observesFailure cfgX 0 envNoChange = true then 1 else 0) ∧
    (observesFailure cfgX 0 envNoChange = true →
      initState.workIterationCount < cfgX.polling.maxWorkIterations) :=
  counter_increment_iff_failure cfgX 0 initState envNoChange
    (pollStep cfgX 0 initState envNoChange).1 stNoChange (by decide)

/-- C5 counterexample: in this concrete cycle the status classifies as
failure, remediation runs, the working tree reports no changes — and the
counter still increments from 0 to 1, so a no-change cycle does consume
budget against the iteration cap. -/
theorem noChange_counter_cex :
    (pollStep cfgX 0 initState envNoChange).2 = StepResult.next stNoChange ∧
    stNoChange.workIterationCount = 1 ∧ (1 : Nat) ≠ 0 := by
  decide

/-- C6: in a run configured with a single allowed work iteration, if the
first cycle observes a failure and continues, and the next cycle again
classifies as failure within budget, the loop terminates there with
`maxIterationsReached = true` and `finalStatus = failure`, the remediation
agent having been invoked exactly once. -/
theorem max_one_iteration_two_failures (cfg : PlodConfig) (startTime : Int)
    (env₀ env₁ : CycleEnv) (sr₁ : CommandResult) (tr₀ : List Event)
    (st₁ : LoopState) (rest : List CycleEnv)
    (hmax : cfg.polling.maxWorkIterations = 1)
    (h₀ : pollStep cfg startTime initState env₀ = (tr₀, .next st₁))
    (hobs : observesFailure cfg startTime env₀ = true)
    (hbud : ¬((maxPollTimeMs cfg : Int) < env₁.now - startTime))
    (hst : env₁.statusResult = .ok sr₁)
    (hparse : parseBuildStatus sr₁.stdout = BuildStatus.failure) :
    ∃ tr, pollLoop cfg startTime initState (env₀ :: env₁ :: rest) =
        (tr, .ok { iterations := st₁.iterations, finalStatus := .failure,
                   maxIterationsReached := true }) ∧
      countClaudeStarted tr = 1 := by
  obtain ⟨hcount, -, -, hcs⟩ := pollStep_next_char _ _ _ _ _ _ h₀
  have hc1 : st₁.workIterationCount = 1 := by
    simpa [initState, hobs] using hcount
  have h₁ : pollStep cfg startTime st₁ env₁ =
      ([Event.execCmd cfg.commands.checkBuildStatus,
        Event.buildStatusLog BuildStatus.failure,
        Event.maxWorkIterationsLog st₁.workIterationCount],
       .done { iterations := st₁.iterations, finalStatus := .failure,
               maxIterationsReached := true }) := by
    simp only [pollStep, hst, hparse]
    rw [if_neg hbud, if_pos (by omega)]
    simp
  refine ⟨tr₀ ++ [Event.execCmd cfg.commands.checkBuildStatus,
                  Event.buildStatusLog BuildStatus.failure,
                  Event.maxWorkIterationsLog st₁.workIterationCount], ?_, ?_⟩
  · simp only [pollLoop, h₀, h₁]
  · simp [countClaudeStarted_append, hcs, hobs, countClaudeStarted]

theorem max_one_iteration_two_failures_wit :
    ∃ tr, pollLoop cfgX 0 initState [envNoChange, envNoChange] =
        (tr, .ok { iterations := stNoChange.iterations, finalStatus := .failure,
                   maxIterationsReached := true }) ∧
      countClaudeStarted tr = 1 :=
  max_one_iteration_two_failures cfgX 0 envNoChange envNoChange
    { stdout := "failure", stderr := "", exitCode := 0 }
    (pollStep cfgX 0 initState envNoChange).1 stNoChange []
    (by decide) (by decide) (by decide) (by decide) rfl (by decide)

/-- C8: when the cycle reaches the remediation agent and the agent call
fails, the whole run aborts at once with that worker error, for every
possible continuation of the oracle: the agent is not retried, the loop
does not continue, and the outcome carries no polling result. -/
theorem worker_failure_aborts_run (cfg : PlodConfig) (startTime : Int)
    (st : LoopState) (env : CycleEnv) (sr : CommandResult) (fr : FailuresOutput)
    (e : ClaudeWorkerError)
    (hbud : ¬((maxPollTimeMs cfg : Int) < env.now - startTime))
    (hst : env.statusResult = .ok sr)
    (hparse : parseBuildStatus sr.stdout = BuildStatus.failure)
    (hcap : st.workIterationCount < cfg.polling.maxWorkIterations)
    (hfx : extractFailuresOutcome env.failuresResult = .ok fr)
    (hwork : env.workResult (jsOrString fr.stdout fr.stderr) = .error e) :
    ∃ tr, (∀ rest : List CycleEnv,
        pollLoop cfg startTime st (env :: rest) = (tr, .err (.worker e))) ∧
      countClaudeStarted tr = 1 := by
  have hstep : pollStep cfg startTime st env =
      ([Event.execCmd cfg.commands.checkBuildStatus,
        Event.buildStatusLog BuildStatus.failure,
        Event.workIterationStart (st.workIterationCount + 1) cfg.polling.maxWorkIterations,
        Event.buildFailedLog (cfg.polling.intervalSeconds * 3),
        Event.sleepSec (cfg.polling.intervalSeconds * 3),
        Event.execCmd cfg.commands.checkBuildFailures,
        Event.failuresExtracted (jsOrString fr.stdout fr.stderr).length
          ((jsOrString fr.stdout fr.stderr).take 200),
        Event.claudeStarted],
       .failed (.worker e)) := by
    simp only [pollStep, hst, hparse, hfx, hwork]
    rw [if_neg hbud, if_neg (by omega)]
    simp
  refine ⟨[Event.execCmd cfg.commands.checkBuildStatus,
           Event.buildStatusLog BuildStatus.failure,
           Event.workIterationStart (st.workIterationCount + 1) cfg.polling.maxWorkIterations,
           Event.buildFailedLog (cfg.polling.intervalSeconds * 3),
           Event.sleepSec (cfg.polling.intervalSeconds * 3),
           Event.execCmd cfg.commands.checkBuildFailures,
           Event.failuresExtracted (jsOrString fr.stdout fr.stderr).length
             ((jsOrString fr.stdout fr.stderr).take 200),
           Event.claudeStarted], fun rest => ?_, ?_⟩
  · simp only [pollLoop, hstep]
  · simp [countClaudeStarted]

def envWorkerFail : CycleEnv :=
  { envNoChange with
    workResult := fun _ => .error { message := "Claude agent timed out after 10 minutes" } }

theorem worker_failure_aborts_run_wit :
    ∃ tr, (∀ rest : List CycleEnv,
        pollLoop cfgX 0 initState (envWorkerFail :: rest) =
          (tr, .err (.worker { message := "Claude agent timed out after 10 minutes" }))) ∧
      countClaudeStarted tr = 1 :=
  worker_failure_aborts_run cfgX 0 initState envWorkerFail
    { stdout := "failure", stderr := "", exitCode := 0 }
    { stdout := some "2 tests failed", stderr := "", exitCode := 0 }
    { message := "Claude agent timed out after 10 minutes" }
    (by decide) rfl (by decide) (by decide) rfl rfl

/-- C9: when the elapsed time at the top of a cycle exceeds the budget,
the orchestrator performs one final status check and returns the
classification of that fresh check with `maxIterationsReached = false`;
and within budget the pass is entirely independent of the clock reading,
so the budget is consulted only at the top of a cycle. -/
theorem budget_exceeded_final_check (cfg : PlodConfig) (startTime : Int)
    (st : LoopState) (env : CycleEnv) (sr : CommandResult)
    (hbud : (maxPollTimeMs cfg : Int) < env.now - startTime)
    (hst : env.statusResult = .ok sr) :
    pollStep cfg startTime st env =
      ([Event.maxPollTimeExceeded ((env.now - startTime) / 60000),
        Event.execCmd cfg.commands.checkBuildStatus],
       .done { iterations := st.iterations, finalStatus := parseBuildStatus sr.stdout,
               maxIterationsReached := false }) ∧
    (∀ (env' : CycleEnv) (n₁ n₂ : Int),
      ¬((maxPollTimeMs cfg : Int) < n₁ - startTime) →
      ¬((maxPollTimeMs cfg : Int) < n₂ - startTime) →
      pollStep cfg startTime st { env' with now := n₁ } =
        pollStep cfg startTime st { env' with now := n₂ }) := by
  constructor
  · simp only [pollStep, hst]
    rw [if_pos hbud]
  · intro env' n₁ n₂ h₁ h₂
    simp only [pollStep]
    rw [if_neg h₁, if_neg h₂]

theorem budget_exceeded_final_check_wit :
    pollStep cfgX 0 stNoChange { envNoChange with now := 600001 } =
      ([Event.maxPollTimeExceeded 10, Event.execCmd "check-status"],
       .done { iterations := stNoChange.iterations, finalStatus := BuildStatus.failure,
               maxIterationsReached := false }) :=
  have h := budget_exceeded_final_check cfgX 0 stNoChange
    { envNoChange with now := 600001 }
    { stdout := "failure", stderr := "", exitCode := 0 } (by decide) rfl
  by simpa using h.1

/-- C4 (amended): a failure cycle in which remediation ran but the working
tree reports no pending changes appends exactly one IterationRecord — with
`workedOn = false`, since that flag records that changes were published,
not that remediation was attempted — never invokes the publish command,
ends the cycle sleeping for the poll interval, and continues to the next
budget check; moreover a run whose change detection never reports changes
never emits the publish invocation at all. -/
theorem noChange_cycle_skips_publish (cfg : PlodConfig) (startTime : Int)
    (st : LoopState) (env : CycleEnv) (sr : CommandResult) (fr : FailuresOutput)
    (w : ClaudeWorkResult) (gr : CommandResult) (tr : List Event) (res : StepResult)
    (hbud : ¬((maxPollTimeMs cfg : Int) < env.now - startTime))
    (hst : env.statusResult = .ok sr)
    (hparse : parseBuildStatus sr.stdout = BuildStatus.failure)
    (hcap : st.workIterationCount < cfg.polling.maxWorkIterations)
    (hfx : extractFailuresOutcome env.failuresResult = .ok fr)
    (hwork : env.workResult (jsOrString fr.stdout fr.stderr) = .ok w)
    (hgit : env.gitStatusResult = .ok gr)
    (hnoch : jsTrim gr.stdout.data = [])
    (hp : pollStep cfg startTime st env = (tr, res)) :
    (res = .next { iterations := st.iterations ++
                      [{ iteration := st.workIterationCount + 1, status := .failure,
                         workedOn := false, timestamp := env.timestamp }],
                   workIterationCount := st.workIterationCount + 1 } ∧
     Event.publishingChanges ∉ tr ∧
     ∃ pre, tr = pre ++ [Event.noChangesLog, Event.sleepSec cfg.polling.intervalSeconds]) ∧
    (∀ (envs : List CycleEnv) (st₀ : LoopState),
      (∀ e ∈ envs, NoChangesOracle e) →
      Event.publishingChanges ∉ (pollLoop cfg startTime st₀ envs).1) := by
  refine ⟨?_, fun envs st₀ hor => pollLoop_no_publish cfg startTime envs st₀ hor⟩
  have hch : decide (0 < (jsTrim gr.stdout.data).length) = false := by simp [hnoch]
  simp only [pollStep, hst, hparse, hfx, hwork, hgit, hch] at hp
  rw [if_neg hbud, if_neg (by omega)] at hp
  simp only [Bool.not_false, if_true, Prod.mk.injEq] at hp
  obtain ⟨htr, hres⟩ := hp
  subst htr hres
  refine ⟨rfl, ?_, ?_⟩
  · by_cases hout : jsTruthyStr w.output = true <;> simp [hout]
  · by_cases hout : jsTruthyStr w.output = true
    · exact ⟨[Event.execCmd cfg.commands.checkBuildStatus,
              Event.buildStatusLog BuildStatus.failure,
              Event.workIterationStart (st.workIterationCount + 1) cfg.polling.maxWorkIterations,
              Event.buildFailedLog (cfg.polling.intervalSeconds * 3),
              Event.sleepSec (cfg.polling.intervalSeconds * 3),
              Event.execCmd cfg.commands.checkBuildFailures,
              Event.failuresExtracted (jsOrString fr.stdout fr.stderr).length
                ((jsOrString fr.stdout fr.stderr).take 200),
              Event.claudeStarted,
              Event.claudeFinished w.success w.output.length,
              Event.claudeOutput w.output,
              Event.execCmd "git status --porcelain"], by simp [hout]⟩
    · exact ⟨[Event.execCmd cfg.commands.checkBuildStatus,
              Event.buildStatusLog BuildStatus.failure,
              Event.workIterationStart (st.workIterationCount + 1) cfg.polling.maxWorkIterations,
              Event.buildFailedLog (cfg.polling.intervalSeconds * 3),
              Event.sleepSec (cfg.polling.intervalSeconds * 3),
              Event.execCmd cfg.commands.checkBuildFailures,
              Event.failuresExtracted (jsOrString fr.stdout fr.stderr).length
                ((jsOrString fr.stdout fr.stderr).take 200),
              Event.claudeStarted,
              Event.claudeFinished w.success w.output.length,
              Event.claudeNoOutput,
              Event.execCmd "git status --porcelain"], by simp [hout]⟩

theorem noChange_cycle_skips_publish_wit :
    (pollStep cfgX 0 initState envNoChange).2 =
      StepResult.next { iterations := initState.iterations ++
                          [{ iteration := initState.workIterationCount + 1, status := .failure,
                             workedOn := false, timestamp := envNoChange.timestamp }],
                        workIterationCount := initState.workIterationCount + 1 } ∧
    Event.publishingChanges ∉ (pollStep cfgX 0 initState envNoChange).1 :=
  have h := noChange_cycle_skips_publish cfgX 0 initState envNoChange
    { stdout := "failure", stderr := "", exitCode := 0 }
    { stdout := some "2 tests failed", stderr := "", exitCode := 0 }
    { success := true, output := "done" }
    { stdout := "", stderr := "", exitCode := 0 }
    (pollStep cfgX 0 initState envNoChange).1
    (pollStep cfgX 0 initState envNoChange).2
    (by decide) rfl (by decide) (by decide) rfl rfl rfl (by decide) rfl
  ⟨h.1.1, h.1.2.1⟩

/-- C4 counterexample: in this concrete no-change remediation cycle the
appended IterationRecord carries `workedOn = false`, not `workedOn = true`
as claimed. -/
theorem noChange_workedOn_cex :
    (pollStep cfgX 0 initState envNoChange).2 = StepResult.next stNoChange ∧
    stNoChange.iterations =
      [{ iteration := 1, status := .failure, workedOn := false, timestamp := 42 }] ∧
    (pollStep cfgX 0 initState envNoChange).2 ≠
      StepResult.next { iterations := [{ iteration := 1, status := .failure,
                                          workedOn := true, timestamp := 42 }],
                        workIterationCount := 1 } := by
  decide

/-- C10: every non-error return of the remediation worker has
`success = true`, and in a cycle that reaches the change check the publish
command is invoked exactly when the trimmed change-detection stdout is
non-empty — for every possible worker result, so the decision never
depends on the worker's success flag or output. -/
theorem worker_success_and_publish_gate
    (args : List String) (msgs : List SdkMessage) (r : ClaudeWorkResult)
    (cfg : PlodConfig) (startTime : Int) (st : LoopState) (env : CycleEnv)
    (sr : CommandResult) (fr : FailuresOutput) (w : ClaudeWorkResult)
    (gr : CommandResult) (tr : List Event) (res : StepResult)
    (hr : work args msgs = .ok r)
    (hbud : ¬((maxPollTimeMs cfg : Int) < env.now - startTime))
    (hst : env.statusResult = .ok sr)
    (hparse : parseBuildStatus sr.stdout = BuildStatus.failure)
    (hcap : st.workIterationCount < cfg.polling.maxWorkIterations)
    (hfx : extractFailuresOutcome env.failuresResult = .ok fr)
    (hwork : env.workResult (jsOrString fr.stdout fr.stderr) = .ok w)
    (hgit : env.gitStatusResult = .ok gr)
    (hp : pollStep cfg startTime st env = (tr, res)) :
    r.success = true ∧
    (Event.publishingChanges ∈ tr ↔ 0 < (jsTrim gr.stdout.data).length) := by
  constructor
  · simp only [work] at hr
    split at hr
    · simp at hr
    · split at hr
      · simp at hr
      · simp only [Except.ok.injEq] at hr
        rw [← hr]
  · simp only [pollStep, hst, hparse, hfx, hwork, hgit] at hp
    rw [if_neg hbud, if_neg (by omega)] at hp
    have htr := congrArg Prod.fst hp
    by_cases hch : 0 < (jsTrim gr.stdout.data).length
    · rw [decide_eq_true hch] at htr
      rcases hpub : env.publishResult with e | pr
      · rw [hpub] at htr
        simp at htr
        rw [← htr]
        simp [hch]
      · rw [hpub] at htr
        simp at htr
        rw [← htr]
        simp [hch]
    · rw [decide_eq_false hch] at htr
      simp at htr
      rw [← htr]
      simp only [iff_false_intro hch, iff_false]
      by_cases hout : jsTruthyStr w.output = true <;> simp [hout]

theorem worker_success_and_publish_gate_wit :
    (work ["-p", "fix the build"] [] = Except.ok { success := true, output := "" } →
      ({ success := true, output := "" } : ClaudeWorkResult).success = true) ∧
    ¬ (Event.publishingChanges ∈ (pollStep cfgX 0 initState envNoChange).1) :=
  have h := worker_success_and_publish_gate ["-p", "fix the build"] []
    { success := true, output := "" } cfgX 0 initState envNoChange
    { stdout := "failure", stderr := "", exitCode := 0 }
    { stdout := some "2 tests failed", stderr := "", exitCode := 0 }
    { success := true, output := "done" }
    { stdout := "", stderr := "", exitCode := 0 }
    (pollStep cfgX 0 initState envNoChange).1
    (pollStep cfgX 0 initState envNoChange).2
    rfl (by decide) rfl (by decide) (by decide) rfl rfl rfl rfl
  ⟨fun _ => h.1, fun hmem => by
    have := h.2.mp hmem
    simp [envNoChange, jsTrim] at this⟩

/-- C3: the failure-extraction tolerance does not survive a stdout-only
failure. With the extraction command exiting 1 after writing only to
stdout, the executor's error carries no stdout and an empty stderr, the
recovery check `error.stdout || error.stderr` is falsy, and the run aborts
with the propagated `CommandExecutionError` — against the documented
intent of using any produced output. -/
theorem extraction_stdout_only_aborts :
    executeOutcome "jk check" "3 tests failed" "" 1 =
      Except.error { command := "jk check", exitCode := 1, stderr := "" } ∧
    extractFailuresOutcome (executeOutcome "jk check" "3 tests failed" "" 1) =
      Except.error { command := "jk check", exitCode := 1, stderr := "" } ∧
    (pollLoop cfgX 0 initState [envStdoutOnly]).2 =
      PollOutcome.err (PollerError.cmd
        { command := "jk check", exitCode := 1, stderr := "" }) := by
  exact ⟨rfl, rfl, by decide⟩
/-- C1: any text whose normalized form contains a success keyword as a
whole word classifies as success, regardless of co-occurring failure or
pending keywords: the success set is tested first. -/
theorem parseBuildStatus_success_priority (s : String)
    (h : successMatch (normalizeStatus s) = true) :
    parseBuildStatus s = BuildStatus.success := by
  simp only [parseBuildStatus, h, if_true]

/-- Witness for C1 at a text in which a failure keyword and a pending
keyword both occur before the success keyword. -/
theorem parseBuildStatus_success_priority_wit :
    successMatch (normalizeStatus "error: build pending, then passed") = true ∧
    parseBuildStatus "error: build pending, then passed" = BuildStatus.success :=
  ⟨by decide, parseBuildStatus_success_priority _ (by decide)⟩

/-- C2: parseBuildStatus is total over the three statuses, and any input
whose normalized form matches none of the three keyword patterns
classifies as pending — never success, never failure. -/
theorem parseBuildStatus_total_default (s : String) :
    (parseBuildStatus s = BuildStatus.success ∨
     parseBuildStatus s = BuildStatus.failure ∨
     parseBuildStatus s = BuildStatus.pending) ∧
    (successMatch (normalizeStatus s) = false →
     failureMatch (normalizeStatus s) = false →
     pendingMatch (normalizeStatus s) = false →
     parseBuildStatus s = BuildStatus.pending ∧
     parseBuildStatus s ≠ BuildStatus.success ∧
     parseBuildStatus s ≠ BuildStatus.failure) := by
  constructor
  · cases h : parseBuildStatus s
    · exact Or.inl rfl
    · exact Or.inr (Or.inl rfl)
    · exact Or.inr (Or.inr rfl)
  · intro hs hf hp
    simp only [parseBuildStatus, hs, hf, hp, if_false]
    exact ⟨rfl, by simp, by simp⟩

/-- Witness for C2 at the empty string, which matches no pattern. -/
theorem parseBuildStatus_total_default_wit :
    parseBuildStatus "" = BuildStatus.pending ∧
    parseBuildStatus "" ≠ BuildStatus.success ∧
    parseBuildStatus "" ≠ BuildStatus.failure :=
  (parseBuildStatus_total_default "").2 (by decide) (by decide) (by decide)
